import Mathlib

/-!
Verification of the currency exchange server (`backend/server.py`).

The server keeps three SQLite tables (`Currency`, `History`, `User`) and
exposes HTTP endpoints that mutate them.  We embed the database as an
in-memory `State` (lists of records plus the auto-increment counters) and
each state-changing endpoint as a function `State → ... → State × Result`.
Numeric columns (`Float` in SQLAlchemy) are embedded as `ℚ`; timestamps
(`datetime.utcnow()`) are embedded as a `Nat` supplied by the caller as
`now`.  Python's `round(x, 2)` (round-half-to-even on two decimals) is
embedded as `pyRound2`.  SQLAlchemy's `query.filter_by(...).first()` is
embedded as `List.find?`, and mutation of the ORM object it returns is
embedded as `updateFirst` (rewriting the first matching record in place).
-/

namespace CurrencyServer

/-- One row of the `Currency` table (`server.py` lines 24-30). -/
structure Currency where
  id : Nat
  code : String
  quantity : ℚ
  updated_at : Nat
  default_buy_rate : ℚ
  default_sell_rate : ℚ
deriving DecidableEq

/-- One row of the `History` table (`server.py` lines 42-49).
`operation_type` is stored as a string, exactly as in the source. -/
structure HistoryEntry where
  id : Nat
  currency_code : String
  operation_type : String
  rate : ℚ
  quantity : ℚ
  total : ℚ
  created_at : Nat
deriving DecidableEq

/-- One row of the `User` table (`server.py` lines 62-67). -/
structure User where
  id : Nat
  username : String
  password : String
  role : String
  created_at : Nat
deriving DecidableEq

/-- The whole database: the three tables plus their auto-increment
primary-key counters. -/
structure State where
  currencies : List Currency
  history : List HistoryEntry
  users : List User
  nextCurrencyId : Nat
  nextHistoryId : Nat
  nextUserId : Nat
deriving DecidableEq

/-- The database right after the initialisation block (`server.py`
lines 78-106): one currency `SOM` at quantity `0` and one admin user
with username and password both `a`. -/
def initState : State where
  currencies := [⟨1, "SOM", 0, 0, 0, 0⟩]
  history := []
  users := [⟨1, "a", "a", "admin", 0⟩]
  nextCurrencyId := 2
  nextHistoryId := 1
  nextUserId := 2

/-- Rewrite the first element of a list satisfying `p` using `f`; the
embedding of mutating the ORM object returned by
`query.filter_by(...).first()`. -/
def updateFirst {α : Type} (p : α → Bool) (f : α → α) : List α → List α
  | [] => []
  | x :: xs => if p x then f x :: xs else x :: updateFirst p f xs

/-- Round-half-to-even to an integer, the rounding used by Python's
builtin `round`. -/
def roundHalfEven (x : ℚ) : ℤ :=
  let n := ⌊x⌋
  let r := x - n
  if r < 1/2 then n
  else if 1/2 < r then n + 1
  else if n % 2 = 0 then n else n + 1

/-- Python's `round(x, 2)`: round-half-to-even at two decimal places. -/
def pyRound2 (x : ℚ) : ℚ := (roundHalfEven (100 * x) : ℚ) / 100

/-- The body of an exchange request (`server.py` lines 441-445), after the
presence check for the five required fields and the `float(...)`
conversions. -/
structure ExchangeReq where
  currency_code : String
  operation_type : String
  rate : ℚ
  quantity : ℚ
  total : ℚ
deriving DecidableEq

/-- The error responses of the `/api/system/exchange` endpoint. -/
inductive ExchangeError where
  /-- 400, "Invalid numbers" (`rate <= 0 or quantity <= 0 or total <= 0`). -/
  | invalidNumbers
  /-- 400, "Total does not match rate * quantity". -/
  | amountMismatch
  /-- 404, "Currency not found". -/
  | currencyNotFound
  /-- 404, "SOM currency not found". -/
  | somNotFound
  /-- 400, "Not enough {code} ..." ; carries the named currency code. -/
  | insufficientBalance (code : String)
  /-- 400, "Invalid operation type". -/
  | invalidOperationType
deriving DecidableEq

/-- The `/api/system/exchange` endpoint (`server.py` lines 435-504).
On success the returned state carries both balance mutations and the
appended history row (one commit); every error path returns the input
state unchanged (nothing was committed). -/
def exchange (s : State) (now : Nat) (r : ExchangeReq) :
    State × Except ExchangeError HistoryEntry :=
  if r.rate ≤ 0 ∨ r.quantity ≤ 0 ∨ r.total ≤ 0 then
    (s, .error .invalidNumbers)
  else if r.total ≠ pyRound2 (r.rate * r.quantity) then
    (s, .error .amountMismatch)
  else
    match s.currencies.find? (fun c => c.code == r.currency_code) with
    | none => (s, .error .currencyNotFound)
    | some currency =>
      match s.currencies.find? (fun c => c.code == "SOM") with
      | none => (s, .error .somNotFound)
      | some som =>
        if r.operation_type = "Purchase" then
          if som.quantity < r.total then
            (s, .error (.insufficientBalance ("SOM")))
          else
            let cs1 := updateFirst (fun c => c.code == "SOM")
              (fun c => { c with quantity := c.quantity - r.total }) s.currencies
            let cs2 := updateFirst (fun c => c.code == r.currency_code)
              (fun c => { c with quantity := c.quantity + r.quantity }) cs1
            let entry : HistoryEntry :=
              ⟨s.nextHistoryId, r.currency_code, r.operation_type,
               r.rate, r.quantity, r.total, now⟩
            ({ s with currencies := cs2, history := s.history ++ [entry],
                      nextHistoryId := s.nextHistoryId + 1 }, .ok entry)
        else if r.operation_type = "Sale" then
          if currency.quantity < r.quantity then
            (s, .error (.insufficientBalance r.currency_code))
          else
            let cs1 := updateFirst (fun c => c.code == r.currency_code)
              (fun c => { c with quantity := c.quantity - r.quantity }) s.currencies
            let cs2 := updateFirst (fun c => c.code == "SOM")
              (fun c => { c with quantity := c.quantity + r.total }) cs1
            let entry : HistoryEntry :=
              ⟨s.nextHistoryId, r.currency_code, r.operation_type,
               r.rate, r.quantity, r.total, now⟩
            ({ s with currencies := cs2, history := s.history ++ [entry],
                      nextHistoryId := s.nextHistoryId + 1 }, .ok entry)
        else
          (s, .error .invalidOperationType)

/-- Result of `POST /api/currencies`. -/
inductive CreateCurrencyResult where
  | ok (c : Currency)
  /-- 409, "Currency already exists". -/
  | conflict
deriving DecidableEq

/-- `POST /api/currencies` (`server.py` lines 123-143).  Omitted numeric
fields default to `0.0` via `data.get(..., 0.0)`; no sign check is
performed on any of them. -/
def create_currency (s : State) (now : Nat) (code : String)
    (quantity buyRate sellRate : Option ℚ) : State × CreateCurrencyResult :=
  match s.currencies.find? (fun c => c.code == code) with
  | some _ => (s, .conflict)
  | none =>
    let c : Currency :=
      ⟨s.nextCurrencyId, code, quantity.getD 0, now,
       buyRate.getD 0, sellRate.getD 0⟩
    ({ s with currencies := s.currencies ++ [c],
              nextCurrencyId := s.nextCurrencyId + 1 }, .ok c)

/-- Result of `PUT /api/currencies/(id)`. -/
inductive UpdateCurrencyResult where
  | ok (c : Currency)
  /-- 404, "Currency not found". -/
  | notFound
  /-- The commit would violate the unique constraint on `code` (the
  source has no explicit check; the database rejects the transaction). -/
  | conflict
deriving DecidableEq

/-- The record produced by applying the optional payload fields of
`PUT /api/currencies/(id)` to a currency row (`server.py` lines 152-161):
each supplied field overwrites the stored one and `updated_at` is always
refreshed. -/
def applyCurrencyFields (c : Currency) (now : Nat) (code : Option String)
    (quantity buyRate sellRate : Option ℚ) : Currency :=
  { c with code := code.getD c.code,
           quantity := quantity.getD c.quantity,
           default_buy_rate := buyRate.getD c.default_buy_rate,
           default_sell_rate := sellRate.getD c.default_sell_rate,
           updated_at := now }

/-- `PUT /api/currencies/(id)` (`server.py` lines 145-163).  Each field
present in the payload overwrites the record's field (no sign check on
`quantity`); `updated_at` is always refreshed.  A code change colliding
with another row's code makes the commit fail on the unique constraint,
leaving the state unchanged. -/
def update_currency (s : State) (now : Nat) (id : Nat)
    (code : Option String) (quantity buyRate sellRate : Option ℚ) :
    State × UpdateCurrencyResult :=
  match s.currencies.find? (fun c => c.id == id) with
  | none => (s, .notFound)
  | some c =>
    if s.currencies.any (fun o =>
        o.id != id && o.code == (applyCurrencyFields c now code quantity buyRate sellRate).code) then
      (s, .conflict)
    else
      ({ s with
           currencies :=
             updateFirst (fun o => o.id == id)
               (fun _ => applyCurrencyFields c now code quantity buyRate sellRate)
               s.currencies },
       .ok (applyCurrencyFields c now code quantity buyRate sellRate))

/-- Result of `PUT /api/currencies/(code)/quantity`. -/
inductive QtyResult where
  | ok (c : Currency)
  /-- 404, "Currency not found". -/
  | notFound
  /-- 400, "Quantity not provided". -/
  | missingQuantity
deriving DecidableEq

/-- `PUT /api/currencies/(code)/quantity` (`server.py` lines 165-178):
absolute quantity set.  The supplied value is stored unconditionally —
the source performs no sign check — and `updated_at` is refreshed. -/
def update_currency_quantity (s : State) (now : Nat) (code : String)
    (quantity : Option ℚ) : State × QtyResult :=
  match s.currencies.find? (fun c => c.code == code) with
  | none => (s, .notFound)
  | some c =>
    match quantity with
    | none => (s, .missingQuantity)
    | some v =>
      let cs := updateFirst (fun o => o.code == code)
        (fun o => { o with quantity := v, updated_at := now }) s.currencies
      ({ s with currencies := cs },
       .ok { c with quantity := v, updated_at := now })

/-- `DELETE /api/currencies/(id)` (`server.py` lines 180-188).  Returns
`true` when a record was deleted, `false` for 404. -/
def delete_currency (s : State) (id : Nat) : State × Bool :=
  match s.currencies.find? (fun c => c.id == id) with
  | none => (s, false)
  | some _ =>
    ({ s with currencies := s.currencies.filter (fun c => c.id != id) }, true)

/-- `POST /api/history` (`server.py` lines 241-258): administrative
insert of a ledger row; the five fields are stored as given, with no
validation of sign or of `total = round(rate * quantity, 2)`. -/
def create_history (s : State) (now : Nat) (code opType : String)
    (rate quantity total : ℚ) : State × HistoryEntry :=
  let e : HistoryEntry :=
    ⟨s.nextHistoryId, code, opType, rate, quantity, total, now⟩
  ({ s with history := s.history ++ [e],
            nextHistoryId := s.nextHistoryId + 1 }, e)

/-- `PUT /api/history/(id)` (`server.py` lines 260-284): administrative
point update; each supplied field overwrites the row's field with no
re-validation.  Returns `false` for 404. -/
def update_history (s : State) (id : Nat) (code opType : Option String)
    (rate quantity total : Option ℚ) (created : Option Nat) : State × Bool :=
  match s.history.find? (fun e => e.id == id) with
  | none => (s, false)
  | some _ =>
    let hs := updateFirst (fun e => e.id == id)
      (fun e =>
        { e with currency_code := code.getD e.currency_code,
                 operation_type := opType.getD e.operation_type,
                 rate := rate.getD e.rate,
                 quantity := quantity.getD e.quantity,
                 total := total.getD e.total,
                 created_at := created.getD e.created_at })
      s.history
    ({ s with history := hs }, true)

/-- `DELETE /api/history/(id)` (`server.py` lines 286-294). -/
def delete_history (s : State) (id : Nat) : State × Bool :=
  match s.history.find? (fun e => e.id == id) with
  | none => (s, false)
  | some _ =>
    ({ s with history := s.history.filter (fun e => e.id != id) }, true)

/-- Result of `POST /api/users`. -/
inductive CreateUserResult where
  | ok (u : User)
  /-- 409, "Username already exists". -/
  | conflict
deriving DecidableEq

/-- `POST /api/users` (`server.py` lines 314-332); the role defaults to
`user` when absent. -/
def create_user (s : State) (now : Nat) (username password : String)
    (role : Option String) : State × CreateUserResult :=
  match s.users.find? (fun u => u.username == username) with
  | some _ => (s, .conflict)
  | none =>
    let u : User := ⟨s.nextUserId, username, password, role.getD ("user"), now⟩
    ({ s with users := s.users ++ [u], nextUserId := s.nextUserId + 1 }, .ok u)

/-- Result of `PUT /api/users/(id)`. -/
inductive UpdateUserResult where
  | ok (u : User)
  /-- 404, "User not found". -/
  | notFound
  /-- 409, "Username already exists". -/
  | conflict
deriving DecidableEq

/-- The record produced by applying the optional payload fields of
`PUT /api/users/(id)` to a user row (`server.py` lines 341-351). -/
def applyUserFields (u : User) (username password role : Option String) : User :=
  { u with username := username.getD u.username,
           password := password.getD u.password,
           role := role.getD u.role }

/-- `PUT /api/users/(id)` (`server.py` lines 334-354): a username change
to a username held by another user is rejected before any field is
applied; otherwise every supplied field overwrites the record's field. -/
def update_user (s : State) (id : Nat)
    (username password role : Option String) : State × UpdateUserResult :=
  match s.users.find? (fun u => u.id == id) with
  | none => (s, .notFound)
  | some u =>
    if (match username with
        | some name => name != u.username && s.users.any (fun o => o.username == name)
        | none => false) then
      (s, .conflict)
    else
      ({ s with
           users :=
             updateFirst (fun o => o.id == id)
               (fun _ => applyUserFields u username password role) s.users },
       .ok (applyUserFields u username password role))

/-- `DELETE /api/users/(id)` (`server.py` lines 356-364). -/
def delete_user (s : State) (id : Nat) : State × Bool :=
  match s.users.find? (fun u => u.id == id) with
  | none => (s, false)
  | some _ =>
    ({ s with users := s.users.filter (fun u => u.id != id) }, true)

/-- `POST /api/system/reset` (`server.py` lines 376-410): zero the `SOM`
currency (creating it if absent), delete every other currency, delete
all history, and delete every user whose username is not `a`.  The
source fetches the admin user (`admin = User.query...`, line 401) but
never modifies or recreates it. -/
def reset_data (s : State) (now : Nat) : State :=
  match s.currencies.find? (fun c => c.code == "SOM") with
  | some _ =>
    { s with
      currencies :=
        (updateFirst (fun c => c.code == "SOM")
          (fun c => { c with quantity := 0 }) s.currencies).filter
          (fun c => c.code == "SOM"),
      history := [],
      users := s.users.filter (fun u => u.username == "a") }
  | none =>
    let som : Currency := ⟨s.nextCurrencyId, "SOM", 0, now, 0, 0⟩
    { s with
      currencies := (s.currencies ++ [som]).filter (fun c => c.code == "SOM"),
      history := [],
      users := s.users.filter (fun u => u.username == "a"),
      nextCurrencyId := s.nextCurrencyId + 1 }

/-- The ledger rows scanned by one analytics sub-query: those with the
given currency code and operation type whose `created_at` lies in the
inclusive window `[from_d, to_d]` (the `History.query.filter(...)` calls
of `server.py` lines 630-635 and 642-647). -/
def windowEntries (hs : List HistoryEntry) (from_d to_d : Nat)
    (code opType : String) : List HistoryEntry :=
  hs.filter (fun h =>
    h.currency_code == code && h.operation_type == opType &&
    decide (from_d ≤ h.created_at) && decide (h.created_at ≤ to_d))

/-- One element of the `/api/analytics/profitable-currencies` response
(`server.py` lines 656-664). -/
structure ProfitRow where
  currency_code : String
  profit : ℚ
  avg_purchase_rate : ℚ
  avg_sale_rate : ℚ
  total_purchased : ℚ
  total_sold : ℚ
deriving DecidableEq

/-- The per-currency body of the `profitable_currencies` loop
(`server.py` lines 628-654): sums and averages of the Purchase and Sale
rows in the window, with each average guarded by `if total > 0 else 0`,
and `profit = (avg_sale_rate - avg_purchase_rate) * total_sold`. -/
def profitRowFor (hs : List HistoryEntry) (from_d to_d : Nat) (code : String) :
    ProfitRow :=
  let purchases := windowEntries hs from_d to_d code ("Purchase")
  let total_purchased := (purchases.map (fun p => p.quantity)).sum
  let total_purchase_amount := (purchases.map (fun p => p.total)).sum
  let avg_purchase_rate :=
    if 0 < total_purchased then total_purchase_amount / total_purchased else 0
  let sales := windowEntries hs from_d to_d code ("Sale")
  let total_sold := (sales.map (fun p => p.quantity)).sum
  let total_sale_amount := (sales.map (fun p => p.total)).sum
  let avg_sale_rate :=
    if 0 < total_sold then total_sale_amount / total_sold else 0
  ⟨code, (avg_sale_rate - avg_purchase_rate) * total_sold,
   avg_purchase_rate, avg_sale_rate, total_purchased, total_sold⟩

/-- `GET /api/analytics/profitable-currencies` (`server.py` lines
610-669): one row per existing non-SOM currency having at least one
Purchase or Sale row in the window, sorted by profit descending
(`result.sort(key=..., reverse=True)`, a stable sort). -/
def profitable_currencies (s : State) (from_d to_d : Nat) : List ProfitRow :=
  List.insertionSort (fun a b => b.profit ≤ a.profit)
    ((s.currencies.filter (fun c => !(c.code == "SOM"))).filterMap
      (fun currency =>
        if (windowEntries s.history from_d to_d currency.code ("Purchase")).isEmpty &&
           (windowEntries s.history from_d to_d currency.code ("Sale")).isEmpty then
          none
        else
          some (profitRowFor s.history from_d to_d currency.code)))

/-- The profitability row exactly as the spec words it:
`avgPurchaseRate = totalPurchaseAmount / totalPurchasedQty` (0 if no
purchases), `avgSaleRate = totalSaleAmount / totalSoldQty` (0 if no
sales), `profit = (avgSaleRate - avgPurchaseRate) * totalSoldQty`.
Used only to compare the implementation against the specification. -/
def specProfitRow (hs : List HistoryEntry) (from_d to_d : Nat) (code : String) :
    ProfitRow :=
  let purchases := windowEntries hs from_d to_d code ("Purchase")
  let sales := windowEntries hs from_d to_d code ("Sale")
  let totalPurchasedQty := (purchases.map (fun p => p.quantity)).sum
  let totalPurchaseAmount := (purchases.map (fun p => p.total)).sum
  let totalSoldQty := (sales.map (fun p => p.quantity)).sum
  let totalSaleAmount := (sales.map (fun p => p.total)).sum
  let avgPurchaseRate :=
    if purchases.isEmpty then 0 else totalPurchaseAmount / totalPurchasedQty
  let avgSaleRate :=
    if sales.isEmpty then 0 else totalSaleAmount / totalSoldQty
  ⟨code, (avgSaleRate - avgPurchaseRate) * totalSoldQty,
   avgPurchaseRate, avgSaleRate, totalPurchasedQty, totalSoldQty⟩

instance : IsTotal ProfitRow (fun a b => b.profit ≤ a.profit) :=
  ⟨fun a b => le_total b.profit a.profit⟩

instance : IsTrans ProfitRow (fun a b => b.profit ≤ a.profit) :=
  ⟨fun _ _ _ h1 h2 => le_trans h2 h1⟩

/-- One state-changing request to the server: every mutating endpoint,
with its payload.  `now` is the wall-clock value `datetime.utcnow()`
would return during that request. -/
inductive Op where
  | createCurrency (now : Nat) (code : String) (quantity buyRate sellRate : Option ℚ)
  | updateCurrency (now : Nat) (id : Nat) (code : Option String)
      (quantity buyRate sellRate : Option ℚ)
  | setQuantity (now : Nat) (code : String) (quantity : Option ℚ)
  | deleteCurrency (id : Nat)
  | createHistory (now : Nat) (code opType : String) (rate quantity total : ℚ)
  | updateHistory (id : Nat) (code opType : Option String)
      (rate quantity total : Option ℚ) (created : Option Nat)
  | deleteHistory (id : Nat)
  | createUser (now : Nat) (username password : String) (role : Option String)
  | updateUser (id : Nat) (username password role : Option String)
  | deleteUser (id : Nat)
  | exchangeOp (now : Nat) (r : ExchangeReq)
  | reset (now : Nat)

/-- The state transition performed by one request. -/
def applyOp (s : State) : Op → State
  | .createCurrency now code q b r => (create_currency s now code q b r).1
  | .updateCurrency now id code q b r => (update_currency s now id code q b r).1
  | .setQuantity now code q => (update_currency_quantity s now code q).1
  | .deleteCurrency id => (delete_currency s id).1
  | .createHistory now code opType rate q t => (create_history s now code opType rate q t).1
  | .updateHistory id code opType rate q t created =>
      (update_history s id code opType rate q t created).1
  | .deleteHistory id => (delete_history s id).1
  | .createUser now u p role => (create_user s now u p role).1
  | .updateUser id u p role => (update_user s id u p role).1
  | .deleteUser id => (delete_user s id).1
  | .exchangeOp now r => (exchange s now r).1
  | .reset now => reset_data s now

/-- States reachable from the freshly initialised database by any
sequence of requests. -/
inductive Reachable : State → Prop where
  | init : Reachable initState
  | next (s : State) (op : Op) : Reachable s → Reachable (applyOp s op)

/-- The non-negativity property claimed for every currency balance. -/
def AllNonneg (s : State) : Prop := ∀ c ∈ s.currencies, 0 ≤ c.quantity

/-- An optional payload value that, when present, is non-negative. -/
def NonnegOpt : Option ℚ → Prop
  | some v => 0 ≤ v
  | none => True

/-- Requests whose supplied quantity values (if any) are non-negative.
The exchange endpoint needs no restriction: its own validation and
insufficiency checks protect the balances. -/
def GoodOp : Op → Prop
  | .createCurrency _ _ q _ _ => NonnegOpt q
  | .updateCurrency _ _ _ q _ _ => NonnegOpt q
  | .setQuantity _ _ q => NonnegOpt q
  | _ => True

/-- States reachable from the freshly initialised database by requests
whose supplied quantity values are non-negative. -/
inductive GoodReachable : State → Prop where
  | init : GoodReachable initState
  | next (s : State) (op : Op) :
      GoodReachable s → GoodOp op → GoodReachable (applyOp s op)

/-- Structural invariants of the `Currency` table: every primary key is
below the auto-increment counter, primary keys are unique, and the
`unique=True` constraint on `code` holds. -/
def SInvC (cs : List Currency) (n : Nat) : Prop :=
  (∀ c ∈ cs, c.id < n) ∧
  (cs.map (fun c => c.id)).Nodup ∧
  (cs.map (fun c => c.code)).Nodup

/-- The currency-table invariants of a whole state. -/
def SInv (s : State) : Prop := SInvC s.currencies s.nextCurrencyId

/-! ### Concrete states and requests used by witnesses and counterexamples -/

/-- Scenario A state: SOM at 1000, USD at 0, no history. -/
def scenarioA : State where
  currencies := [⟨1, "SOM", 1000, 0, 0, 0⟩, ⟨2, "USD", 0, 0, 0, 0⟩]
  history := []
  users := [⟨1, "a", "a", "admin", 0⟩]
  nextCurrencyId := 3
  nextHistoryId := 1
  nextUserId := 2

/-- Scenario A request: Purchase of 100 USD at rate 8, total 800. -/
def reqA : ExchangeReq := ⟨"USD", "Purchase", 8, 100, 800⟩

/-- Scenario C state: SOM at 200, USD at 100. -/
def scenarioC : State where
  currencies := [⟨1, "SOM", 200, 0, 0, 0⟩, ⟨2, "USD", 100, 0, 0, 0⟩]
  history := []
  users := [⟨1, "a", "a", "admin", 0⟩]
  nextCurrencyId := 3
  nextHistoryId := 1
  nextUserId := 2

/-- Scenario C request: Sale of 100 USD at rate 9, total 900. -/
def reqC : ExchangeReq := ⟨"USD", "Sale", 9, 100, 900⟩

/-- Scenario D request: total 799.999 while rate * quantity = 800. -/
def reqD : ExchangeReq := ⟨"USD", "Purchase", 8, 100, 799999/1000⟩

/-- State for the SOM self-exchange witness: SOM at 1000. -/
def somState : State where
  currencies := [⟨1, "SOM", 1000, 0, 0, 0⟩]
  history := []
  users := [⟨1, "a", "a", "admin", 0⟩]
  nextCurrencyId := 2
  nextHistoryId := 1
  nextUserId := 2

/-- SOM self-purchase request: 100 SOM at rate 2, total 200. -/
def reqSom : ExchangeReq := ⟨"SOM", "Purchase", 2, 100, 200⟩

/-- A small ledger for the profitability witness: one purchase and one
sale of USD inside the window. -/
def analyticsState : State where
  currencies := [⟨1, "SOM", 0, 0, 0, 0⟩, ⟨2, "USD", 100, 0, 0, 0⟩]
  history := [⟨1, "USD", "Purchase", 8, 100, 800, 3⟩, ⟨2, "USD", "Sale", 9, 50, 450, 4⟩]
  users := [⟨1, "a", "a", "admin", 0⟩]
  nextCurrencyId := 3
  nextHistoryId := 3
  nextUserId := 2

/-! ### Helper lemmas about `updateFirst` and `List.find?` -/

theorem updateFirst_of_find?_none {α : Type} {p : α → Bool} (f : α → α) :
    ∀ {l : List α}, l.find? p = none → updateFirst p f l = l
  | [], _ => rfl
  | x :: xs, h => by
    rw [List.find?_cons] at h
    cases hpx : p x with
    | true => simp [hpx] at h
    | false =>
      simp only [hpx] at h
      simp [updateFirst, hpx, updateFirst_of_find?_none f h]

theorem mem_updateFirst {α : Type} {p : α → Bool} {f : α → α} :
    ∀ {l : List α} {x : α}, x ∈ updateFirst p f l →
      x ∈ l ∨ ∃ y, l.find? p = some y ∧ x = f y := by
  intro l
  induction l with
  | nil => intro x hx; exact absurd hx (by simp [updateFirst])
  | cons a as ih =>
    intro x hx
    by_cases hpa : p a = true
    · simp only [updateFirst, if_pos hpa, List.mem_cons] at hx
      rcases hx with hx | hx
      · exact Or.inr ⟨a, by simp [List.find?_cons, hpa], hx⟩
      · exact Or.inl (List.mem_cons_of_mem a hx)
    · simp only [updateFirst, if_neg hpa, List.mem_cons] at hx
      rcases hx with hx | hx
      · exact Or.inl (hx ▸ List.mem_cons_self a as)
      · rcases ih hx with h | ⟨y, hy, hxy⟩
        · exact Or.inl (List.mem_cons_of_mem a h)
        · refine Or.inr ⟨y, ?_, hxy⟩
          simp [List.find?_cons, Bool.of_not_eq_true hpa, hy]

theorem map_updateFirst_fix {α β : Type} {p : α → Bool} {f : α → α} (g : α → β)
    (hg : ∀ x, p x = true → g (f x) = g x) :
    ∀ l : List α, (updateFirst p f l).map g = l.map g := by
  intro l
  induction l with
  | nil => rfl
  | cons a as ih =>
    by_cases hpa : p a = true
    · simp [updateFirst, if_pos hpa, hg a hpa]
    · simp [updateFirst, if_neg hpa, ih]

theorem find?_code_updateFirst (l : List Currency) (X Y : String)
    (f : Currency → Currency) (hf : ∀ c, (f c).code = c.code) :
    (updateFirst (fun c => c.code == X) f l).find? (fun c => c.code == Y) =
      if Y = X then (l.find? (fun c => c.code == Y)).map f
      else l.find? (fun c => c.code == Y) := by
  induction l with
  | nil => simp [updateFirst]
  | cons a as ih =>
    by_cases haX : a.code = X
    · have hpa : (a.code == X) = true := by simp [haX]
      by_cases hYX : Y = X
      · subst hYX
        simp [updateFirst, hpa, List.find?_cons, haX, hf a]
      · have haY : (a.code == Y) = false := by
          simp only [beq_eq_false_iff_ne, ne_eq]
          exact fun h => hYX (h ▸ haX)
        have hfaY : ((f a).code == Y) = false := by rw [hf a]; exact haY
        simp [updateFirst, hpa, List.find?_cons, hfaY, haY, hYX]
    · have hpa : (a.code == X) = false := by simp [haX]
      by_cases haY : a.code = Y
      · have hYX : ¬ Y = X := fun hq => haX (by rw [haY, hq])
        simp [updateFirst, hpa, List.find?_cons, haY, hYX]
      · have haY' : (a.code == Y) = false := by simp [haY]
        simp only [updateFirst, hpa, Bool.false_eq_true, if_false,
          List.find?_cons, haY']
        exact ih

theorem filter_eq_nil_of_all_ne {α : Type} {p : α → Bool} {l : List α}
    (h : ∀ x ∈ l, p x = false) : l.filter p = [] := by
  induction l with
  | nil => rfl
  | cons a as ih =>
    rw [List.filter_cons, h a (List.mem_cons_self a as)]
    exact ih fun x hx => h x (List.mem_cons_of_mem a hx)

theorem roundHalfEven_intCast (n : ℤ) : roundHalfEven (n : ℚ) = n := by
  unfold roundHalfEven
  rw [Int.floor_intCast]
  norm_num

theorem pyRound2_mul_hundred {x : ℚ} (n : ℤ) (h : 100 * x = (n : ℚ)) :
    pyRound2 x = (n : ℚ) / 100 := by
  rw [pyRound2, h, roundHalfEven_intCast]

/-! ### C1: valid Purchase requests -/

/-- C1: every exchange request that passes validation with
operation_type Purchase (`rate > 0`, `quantity > 0`, `total > 0`,
`total = round(rate*quantity, 2)`, and `som.quantity ≥ total`), on a state
where the named foreign currency and SOM both exist, succeeds; afterwards
SOM's quantity is its old quantity minus `total`, the foreign currency's
quantity is its old quantity plus `quantity`, and exactly one new history
entry is appended whose `currency_code`, `operation_type`, `rate`,
`quantity` and `total` equal the request's values. -/
theorem exchange_purchase_ok (s : State) (now : Nat) (r : ExchangeReq)
    (c0 som : Currency)
    (hop : r.operation_type = "Purchase")
    (hrate : 0 < r.rate) (hqty : 0 < r.quantity) (htot : 0 < r.total)
    (hround : r.total = pyRound2 (r.rate * r.quantity))
    (hc : s.currencies.find? (fun c => c.code == r.currency_code) = some c0)
    (hsom : s.currencies.find? (fun c => c.code == "SOM") = some som)
    (hfc : r.currency_code ≠ "SOM")
    (hbal : r.total ≤ som.quantity) :
    ∃ e : HistoryEntry,
      (exchange s now r).2 = .ok e ∧
      (exchange s now r).1.history = s.history ++ [e] ∧
      e.currency_code = r.currency_code ∧ e.operation_type = r.operation_type ∧
      e.rate = r.rate ∧ e.quantity = r.quantity ∧ e.total = r.total ∧
      (exchange s now r).1.currencies.find? (fun c => c.code == "SOM") =
        some { som with quantity := som.quantity - r.total } ∧
      (exchange s now r).1.currencies.find? (fun c => c.code == r.currency_code) =
        some { c0 with quantity := c0.quantity + r.quantity } := by
  have hpos : ¬(r.rate ≤ 0 ∨ r.quantity ≤ 0 ∨ r.total ≤ 0) := by
    push_neg
    exact ⟨hrate, hqty, htot⟩
  have hne : ¬(r.total ≠ pyRound2 (r.rate * r.quantity)) := not_ne_iff.mpr hround
  have hlt : ¬(som.quantity < r.total) := not_lt.mpr hbal
  have hsymm : ¬(("SOM" : String) = r.currency_code) := fun h => hfc h.symm
  refine ⟨⟨s.nextHistoryId, r.currency_code, r.operation_type,
           r.rate, r.quantity, r.total, now⟩, ?_, ?_, rfl, rfl, rfl, rfl, rfl, ?_, ?_⟩
  · simp only [exchange, hpos, hne, hlt, hc, hsom, hop, if_false, if_true,
      ite_false, ite_true, Bool.false_eq_true]
  · simp only [exchange, hpos, hne, hlt, hc, hsom, hop, if_false, if_true,
      ite_false, ite_true, Bool.false_eq_true]
  · simp only [exchange, hpos, hne, hlt, hc, hsom, hop, if_false, if_true,
      ite_false, ite_true, Bool.false_eq_true]
    rw [find?_code_updateFirst _ r.currency_code ("SOM")
          (fun c => { c with quantity := c.quantity + r.quantity }) (fun c => rfl),
        if_neg hsymm,
        find?_code_updateFirst _ ("SOM") ("SOM")
          (fun c => { c with quantity := c.quantity - r.total }) (fun c => rfl),
        if_pos rfl, hsom, Option.map_some']
  · simp only [exchange, hpos, hne, hlt, hc, hsom, hop, if_false, if_true,
      ite_false, ite_true, Bool.false_eq_true]
    rw [find?_code_updateFirst _ r.currency_code r.currency_code
          (fun c => { c with quantity := c.quantity + r.quantity }) (fun c => rfl),
        if_pos rfl,
        find?_code_updateFirst _ ("SOM") r.currency_code
          (fun c => { c with quantity := c.quantity - r.total }) (fun c => rfl),
        if_neg hfc, hc, Option.map_some']

theorem exchange_purchase_ok_witness :
    reqA.total = pyRound2 (reqA.rate * reqA.quantity) ∧
    reqA.total ≤ (1000 : ℚ) ∧
    (∃ e : HistoryEntry,
      (exchange scenarioA 0 reqA).2 = .ok e ∧
      (exchange scenarioA 0 reqA).1.history = scenarioA.history ++ [e] ∧
      e.currency_code = reqA.currency_code ∧ e.operation_type = reqA.operation_type ∧
      e.rate = reqA.rate ∧ e.quantity = reqA.quantity ∧ e.total = reqA.total ∧
      (exchange scenarioA 0 reqA).1.currencies.find? (fun c => c.code == "SOM") =
        some { (⟨1, "SOM", 1000, 0, 0, 0⟩ : Currency) with quantity := 1000 - reqA.total } ∧
      (exchange scenarioA 0 reqA).1.currencies.find? (fun c => c.code == reqA.currency_code) =
        some { (⟨2, "USD", 0, 0, 0, 0⟩ : Currency) with quantity := 0 + reqA.quantity }) :=
  ⟨by rw [show reqA.total = (800 : ℚ) from rfl,
        show reqA.rate * reqA.quantity = ((8 : ℚ) * 100) from rfl,
        pyRound2_mul_hundred 80000 (by norm_num)]
      norm_num,
   by norm_num [reqA],
   exchange_purchase_ok scenarioA 0 reqA ⟨2, "USD", 0, 0, 0, 0⟩ ⟨1, "SOM", 1000, 0, 0, 0⟩
     rfl (by norm_num [reqA]) (by norm_num [reqA]) (by norm_num [reqA])
     (by rw [show reqA.total = (800 : ℚ) from rfl,
           show reqA.rate * reqA.quantity = ((8 : ℚ) * 100) from rfl,
           pyRound2_mul_hundred 80000 (by norm_num)]
         norm_num)
     rfl rfl (by simp [reqA]) (by norm_num [reqA])⟩

/-! ### C2: Sale requests -/

/-- C2: every exchange request that passes validation with
operation_type Sale (`rate > 0`, `quantity > 0`, `total > 0`,
`total = round(rate*quantity, 2)`), on a state where the named foreign
currency and SOM both exist: if `foreign.quantity ≥ quantity` the
operation succeeds, the foreign currency's quantity afterwards is its
quantity before minus `quantity`, SOM's quantity afterwards is its
quantity before plus `total`, and exactly one new history entry with
matching fields is appended; if `foreign.quantity < quantity` the request
fails with `insufficientBalance` naming the foreign code. -/
theorem exchange_sale_spec (s : State) (now : Nat) (r : ExchangeReq)
    (c0 som : Currency)
    (hop : r.operation_type = "Sale")
    (hrate : 0 < r.rate) (hqty : 0 < r.quantity) (htot : 0 < r.total)
    (hround : r.total = pyRound2 (r.rate * r.quantity))
    (hc : s.currencies.find? (fun c => c.code == r.currency_code) = some c0)
    (hsom : s.currencies.find? (fun c => c.code == "SOM") = some som)
    (hfc : r.currency_code ≠ "SOM") :
    (r.quantity ≤ c0.quantity →
      ∃ e : HistoryEntry,
        (exchange s now r).2 = .ok e ∧
        (exchange s now r).1.history = s.history ++ [e] ∧
        e.currency_code = r.currency_code ∧ e.operation_type = r.operation_type ∧
        e.rate = r.rate ∧ e.quantity = r.quantity ∧ e.total = r.total ∧
        (exchange s now r).1.currencies.find? (fun c => c.code == r.currency_code) =
          some { c0 with quantity := c0.quantity - r.quantity } ∧
        (exchange s now r).1.currencies.find? (fun c => c.code == "SOM") =
          some { som with quantity := som.quantity + r.total }) ∧
    (c0.quantity < r.quantity →
      exchange s now r = (s, .error (.insufficientBalance r.currency_code))) := by
  have hpos : ¬(r.rate ≤ 0 ∨ r.quantity ≤ 0 ∨ r.total ≤ 0) := by
    push_neg
    exact ⟨hrate, hqty, htot⟩
  have hne : ¬(r.total ≠ pyRound2 (r.rate * r.quantity)) := not_ne_iff.mpr hround
  have hSP : ¬(("Sale" : String) = "Purchase") := by decide
  have hsymm : ¬(("SOM" : String) = r.currency_code) := fun h => hfc h.symm
  constructor
  · intro hbal
    have hlt : ¬(c0.quantity < r.quantity) := not_lt.mpr hbal
    refine ⟨⟨s.nextHistoryId, r.currency_code, r.operation_type,
             r.rate, r.quantity, r.total, now⟩, ?_, ?_, rfl, rfl, rfl, rfl, rfl, ?_, ?_⟩
    · simp only [exchange, hpos, hne, hlt, hc, hsom, hop, hSP, if_false, if_true,
        ite_false, ite_true, eq_self_iff_true, Bool.false_eq_true]
    · simp only [exchange, hpos, hne, hlt, hc, hsom, hop, hSP, if_false, if_true,
        ite_false, ite_true, eq_self_iff_true, Bool.false_eq_true]
    · simp only [exchange, hpos, hne, hlt, hc, hsom, hop, hSP, if_false, if_true,
        ite_false, ite_true, eq_self_iff_true, Bool.false_eq_true]
      rw [find?_code_updateFirst _ ("SOM") r.currency_code
            (fun c => { c with quantity := c.quantity + r.total }) (fun c => rfl),
          if_neg hfc,
          find?_code_updateFirst _ r.currency_code r.currency_code
            (fun c => { c with quantity := c.quantity - r.quantity }) (fun c => rfl),
          if_pos rfl, hc, Option.map_some']
    · simp only [exchange, hpos, hne, hlt, hc, hsom, hop, hSP, if_false, if_true,
        ite_false, ite_true, eq_self_iff_true, Bool.false_eq_true]
      rw [find?_code_updateFirst _ ("SOM") ("SOM")
            (fun c => { c with quantity := c.quantity + r.total }) (fun c => rfl),
          if_pos rfl,
          find?_code_updateFirst _ r.currency_code ("SOM")
            (fun c => { c with quantity := c.quantity - r.quantity }) (fun c => rfl),
          if_neg hsymm, hsom, Option.map_some']
  · intro hlt
    simp only [exchange, hpos, hne, hlt, hc, hsom, hop, hSP, if_false, if_true,
      ite_false, ite_true, eq_self_iff_true, Bool.false_eq_true]

theorem exchange_sale_spec_witness :
    reqC.total = pyRound2 (reqC.rate * reqC.quantity) ∧
    ((reqC.quantity ≤ (100 : ℚ) →
      ∃ e : HistoryEntry,
        (exchange scenarioC 0 reqC).2 = .ok e ∧
        (exchange scenarioC 0 reqC).1.history = scenarioC.history ++ [e] ∧
        e.currency_code = reqC.currency_code ∧ e.operation_type = reqC.operation_type ∧
        e.rate = reqC.rate ∧ e.quantity = reqC.quantity ∧ e.total = reqC.total ∧
        (exchange scenarioC 0 reqC).1.currencies.find? (fun c => c.code == reqC.currency_code) =
          some { (⟨2, "USD", 100, 0, 0, 0⟩ : Currency) with quantity := 100 - reqC.quantity } ∧
        (exchange scenarioC 0 reqC).1.currencies.find? (fun c => c.code == "SOM") =
          some { (⟨1, "SOM", 200, 0, 0, 0⟩ : Currency) with quantity := 200 + reqC.total }) ∧
    ((100 : ℚ) < reqC.quantity →
      exchange scenarioC 0 reqC = (scenarioC, .error (.insufficientBalance reqC.currency_code)))) :=
  ⟨by rw [show reqC.total = (900 : ℚ) from rfl,
        show reqC.rate * reqC.quantity = ((9 : ℚ) * 100) from rfl,
        pyRound2_mul_hundred 90000 (by norm_num)]
      norm_num,
   exchange_sale_spec scenarioC 0 reqC ⟨2, "USD", 100, 0, 0, 0⟩ ⟨1, "SOM", 200, 0, 0, 0⟩
     rfl (by norm_num [reqC]) (by norm_num [reqC]) (by norm_num [reqC])
     (by rw [show reqC.total = (900 : ℚ) from rfl,
           show reqC.rate * reqC.quantity = ((9 : ℚ) * 100) from rfl,
           pyRound2_mul_hundred 90000 (by norm_num)]
         norm_num)
     rfl rfl (by simp [reqC])⟩

/-! ### C4: failed validation leaves the state unchanged -/

/-- C4: every exchange request rejected with `amountMismatch` or with
`insufficientBalance` leaves the whole state — all currency quantities
and the ledger — exactly as it was (no partial mutation survives). -/
theorem exchange_rejected_preserves_state (s : State) (now : Nat)
    (r : ExchangeReq) (e : ExchangeError)
    (h : (exchange s now r).2 = .error e)
    (_he : e = .amountMismatch ∨ ∃ code, e = .insufficientBalance code) :
    (exchange s now r).1 = s := by
  revert h
  unfold exchange
  repeat' split
  all_goals intro h
  all_goals simp_all

theorem exchange_rejected_preserves_state_witness :
    (exchange scenarioC 0 (⟨"USD", "Sale", 9, 200, 1800⟩ : ExchangeReq)).2 =
      .error (.insufficientBalance ("USD")) ∧
    ((.error (.insufficientBalance ("USD")) : Except ExchangeError HistoryEntry) =
        .error .amountMismatch ∨
      ∃ code, (.insufficientBalance ("USD") : ExchangeError) = .insufficientBalance code) ∧
    (exchange scenarioC 0 (⟨"USD", "Sale", 9, 200, 1800⟩ : ExchangeReq)).1 = scenarioC := by
  have h2 : (exchange scenarioC 0 (⟨"USD", "Sale", 9, 200, 1800⟩ : ExchangeReq)).2 =
      .error (.insufficientBalance ("USD")) := by
    have hpos : ¬(((⟨"USD", "Sale", 9, 200, 1800⟩ : ExchangeReq)).rate ≤ 0 ∨
        ((⟨"USD", "Sale", 9, 200, 1800⟩ : ExchangeReq)).quantity ≤ 0 ∨
        ((⟨"USD", "Sale", 9, 200, 1800⟩ : ExchangeReq)).total ≤ 0) := by norm_num
    have hne : ¬(((⟨"USD", "Sale", 9, 200, 1800⟩ : ExchangeReq)).total ≠
        pyRound2 (((⟨"USD", "Sale", 9, 200, 1800⟩ : ExchangeReq)).rate *
          ((⟨"USD", "Sale", 9, 200, 1800⟩ : ExchangeReq)).quantity)) := by
      rw [show ((⟨"USD", "Sale", 9, 200, 1800⟩ : ExchangeReq)).rate *
            ((⟨"USD", "Sale", 9, 200, 1800⟩ : ExchangeReq)).quantity = ((9 : ℚ) * 200) from rfl,
          pyRound2_mul_hundred 180000 (by norm_num)]
      norm_num
    unfold exchange
    rw [if_neg hpos, if_neg hne,
        show scenarioC.currencies.find?
          (fun c => c.code == ((⟨"USD", "Sale", 9, 200, 1800⟩ : ExchangeReq)).currency_code) =
          some ⟨2, "USD", 100, 0, 0, 0⟩ from rfl,
        show scenarioC.currencies.find? (fun c => c.code == "SOM") =
          some ⟨1, "SOM", 200, 0, 0, 0⟩ from rfl]
    norm_num
    rfl
  exact ⟨h2, Or.inr ⟨"USD", rfl⟩,
    exchange_rejected_preserves_state scenarioC 0 _ _ h2 (Or.inr ⟨"USD", rfl⟩)⟩

/-! ### C5: the strict-equality consistency check -/

/-- C5: for every exchange request with positive rate, quantity and
total, the request fails with `amountMismatch` if and only if `total` is
not exactly equal to `round(rate * quantity, 2)` (strict equality on the
two-decimal rounding, no epsilon). -/
theorem exchange_amount_mismatch_iff (s : State) (now : Nat) (r : ExchangeReq)
    (hrate : 0 < r.rate) (hqty : 0 < r.quantity) (htot : 0 < r.total) :
    (exchange s now r).2 = .error .amountMismatch ↔
      r.total ≠ pyRound2 (r.rate * r.quantity) := by
  have hpos : ¬(r.rate ≤ 0 ∨ r.quantity ≤ 0 ∨ r.total ≤ 0) := by
    push_neg
    exact ⟨hrate, hqty, htot⟩
  unfold exchange
  rw [if_neg hpos]
  by_cases hmm : r.total ≠ pyRound2 (r.rate * r.quantity)
  · rw [if_pos hmm]
    simpa using hmm
  · rw [if_neg hmm]
    constructor
    · intro h
      exfalso
      revert h
      repeat' split
      all_goals intro h
      all_goals simp_all
    · intro h
      exact absurd h hmm

theorem exchange_amount_mismatch_iff_witness :
    (0 : ℚ) < reqD.rate ∧ (0 : ℚ) < reqD.quantity ∧ (0 : ℚ) < reqD.total ∧
    (exchange initState 0 reqD).2 = .error .amountMismatch :=
  ⟨by norm_num [reqD], by norm_num [reqD], by norm_num [reqD],
   (exchange_amount_mismatch_iff initState 0 reqD (by norm_num [reqD])
      (by norm_num [reqD]) (by norm_num [reqD])).mpr
     (by rw [show reqD.total = ((799999 : ℚ)/1000) from rfl,
           show reqD.rate * reqD.quantity = ((8 : ℚ) * 100) from rfl,
           pyRound2_mul_hundred 80000 (by norm_num)]
         norm_num)⟩

/-! ### C6: a request naming an unknown currency -/

/-- C6 counterexample: on the initial state (which has no `USD` row), a
fully validated Purchase request naming `USD` does not implicitly create
the currency and proceed — it fails with `currencyNotFound` (HTTP 404,
"Currency not found") and leaves the state unchanged. -/
theorem exchange_unknown_code_counterexample :
    exchange initState 0 reqA = (initState, .error .currencyNotFound) ∧
    initState.currencies = [⟨1, "SOM", 0, 0, 0, 0⟩] := by
  refine ⟨?_, rfl⟩
  have hpos : ¬(reqA.rate ≤ 0 ∨ reqA.quantity ≤ 0 ∨ reqA.total ≤ 0) := by
    norm_num [reqA]
  have hne : ¬(reqA.total ≠ pyRound2 (reqA.rate * reqA.quantity)) := by
    rw [show reqA.total = (800 : ℚ) from rfl,
        show reqA.rate * reqA.quantity = ((8 : ℚ) * 100) from rfl,
        pyRound2_mul_hundred 80000 (by norm_num)]
    norm_num
  unfold exchange
  rw [if_neg hpos, if_neg hne,
      show initState.currencies.find? (fun c => c.code == reqA.currency_code) =
        none from rfl]

/-- C6 amended: a validated exchange request (positive numbers, matching
total) naming a `currency_code` for which no Currency record exists fails
with `currencyNotFound` and leaves the state unchanged; no currency is
implicitly created. -/
theorem exchange_unknown_code_fails (s : State) (now : Nat) (r : ExchangeReq)
    (hrate : 0 < r.rate) (hqty : 0 < r.quantity) (htot : 0 < r.total)
    (hround : r.total = pyRound2 (r.rate * r.quantity))
    (hnone : s.currencies.find? (fun c => c.code == r.currency_code) = none) :
    exchange s now r = (s, .error .currencyNotFound) := by
  have hpos : ¬(r.rate ≤ 0 ∨ r.quantity ≤ 0 ∨ r.total ≤ 0) := by
    push_neg
    exact ⟨hrate, hqty, htot⟩
  have hne : ¬(r.total ≠ pyRound2 (r.rate * r.quantity)) := not_ne_iff.mpr hround
  unfold exchange
  rw [if_neg hpos, if_neg hne, hnone]

theorem exchange_unknown_code_fails_witness :
    ((0 : ℚ) < reqC.rate ∧ reqC.total = pyRound2 (reqC.rate * reqC.quantity) ∧
      initState.currencies.find? (fun c => c.code == reqC.currency_code) = none) ∧
    exchange initState 3 reqC = (initState, .error .currencyNotFound) := by
  have hround : reqC.total = pyRound2 (reqC.rate * reqC.quantity) := by
    rw [show reqC.total = (900 : ℚ) from rfl,
        show reqC.rate * reqC.quantity = ((9 : ℚ) * 100) from rfl,
        pyRound2_mul_hundred 90000 (by norm_num)]
    norm_num
  exact ⟨⟨by norm_num [reqC], hround, rfl⟩,
    exchange_unknown_code_fails initState 3 reqC (by norm_num [reqC])
      (by norm_num [reqC]) (by norm_num [reqC]) hround rfl⟩

/-! ### C7: the absolute quantity-set endpoint -/

/-- C7 counterexample: setting the quantity of the existing currency
`SOM` to the negative value `-5` does not fail — the endpoint stores the
negative value (there is no `InvalidQuantity` check in the source). -/
theorem update_quantity_negative_counterexample :
    (update_currency_quantity initState 5 ("SOM") (some (-5))).2 =
      .ok ⟨1, "SOM", -5, 5, 0, 0⟩ ∧
    (update_currency_quantity initState 5 ("SOM") (some (-5))).1.currencies =
      [⟨1, "SOM", -5, 5, 0, 0⟩] ∧
    (-5 : ℚ) < 0 :=
  ⟨rfl, rfl, by norm_num⟩

/-- C7 amended: for every call of the absolute quantity-set operation on
an existing currency with a supplied value of any sign, the operation
succeeds, sets that currency's quantity to exactly the supplied value and
refreshes `updated_at` to the current time; other currencies and the
ledger are untouched.  Negative values are accepted: the endpoint has no
`InvalidQuantity` check. -/
theorem update_quantity_sets_value (s : State) (now : Nat) (code : String)
    (v : ℚ) (c0 : Currency)
    (hc : s.currencies.find? (fun c => c.code == code) = some c0) :
    (update_currency_quantity s now code (some v)).2 =
      .ok { c0 with quantity := v, updated_at := now } ∧
    (update_currency_quantity s now code (some v)).1.currencies.find?
        (fun c => c.code == code) =
      some { c0 with quantity := v, updated_at := now } ∧
    (∀ Y, Y ≠ code →
      (update_currency_quantity s now code (some v)).1.currencies.find?
          (fun c => c.code == Y) = s.currencies.find? (fun c => c.code == Y)) ∧
    (update_currency_quantity s now code (some v)).1.history = s.history := by
  refine ⟨?_, ?_, ?_, ?_⟩
  · simp only [update_currency_quantity, hc]
  · simp only [update_currency_quantity, hc]
    rw [find?_code_updateFirst _ code code
          (fun o => { o with quantity := v, updated_at := now }) (fun c => rfl),
        if_pos rfl, hc, Option.map_some']
  · intro Y hY
    simp only [update_currency_quantity, hc]
    rw [find?_code_updateFirst _ code Y
          (fun o => { o with quantity := v, updated_at := now }) (fun c => rfl),
        if_neg hY]
  · simp only [update_currency_quantity, hc]

theorem update_quantity_sets_value_witness :
    scenarioA.currencies.find? (fun c => c.code == "USD") =
      some ⟨2, "USD", 0, 0, 0, 0⟩ ∧
    ((update_currency_quantity scenarioA 9 ("USD") (some (-3))).2 =
        .ok ⟨2, "USD", -3, 9, 0, 0⟩ ∧
      (update_currency_quantity scenarioA 9 ("USD") (some (-3))).1.currencies.find?
          (fun c => c.code == "USD") = some ⟨2, "USD", -3, 9, 0, 0⟩ ∧
      (∀ Y, Y ≠ "USD" →
        (update_currency_quantity scenarioA 9 ("USD") (some (-3))).1.currencies.find?
            (fun c => c.code == Y) = scenarioA.currencies.find? (fun c => c.code == Y)) ∧
      (update_currency_quantity scenarioA 9 ("USD") (some (-3))).1.history =
        scenarioA.history) :=
  ⟨rfl, update_quantity_sets_value scenarioA 9 ("USD") (-3) ⟨2, "USD", 0, 0, 0, 0⟩ rfl⟩

/-! ### C10: exchanging SOM against itself -/

/-- C10: for a validated exchange request whose `currency_code` is
`SOM` itself, both operands resolve to the same record, so the two
balance mutations combine: a Purchase with `som.quantity ≥ total`
succeeds and changes SOM's quantity by `quantity - total`, and a Sale
with `som.quantity ≥ quantity` succeeds and changes it by
`total - quantity`; in both cases a history entry with currency_code
`SOM` is appended and no other currency's balance changes. -/
theorem exchange_som_self (s : State) (now : Nat) (r : ExchangeReq)
    (som : Currency)
    (hcode : r.currency_code = "SOM")
    (hrate : 0 < r.rate) (hqty : 0 < r.quantity) (htot : 0 < r.total)
    (hround : r.total = pyRound2 (r.rate * r.quantity))
    (hsom : s.currencies.find? (fun c => c.code == "SOM") = some som) :
    (r.operation_type = "Purchase" → r.total ≤ som.quantity →
      ∃ e : HistoryEntry,
        (exchange s now r).2 = .ok e ∧
        (exchange s now r).1.history = s.history ++ [e] ∧
        e.currency_code = "SOM" ∧
        (exchange s now r).1.currencies.find? (fun c => c.code == "SOM") =
          some { som with quantity := som.quantity + (r.quantity - r.total) } ∧
        (∀ Y, Y ≠ "SOM" →
          (exchange s now r).1.currencies.find? (fun c => c.code == Y) =
            s.currencies.find? (fun c => c.code == Y))) ∧
    (r.operation_type = "Sale" → r.quantity ≤ som.quantity →
      ∃ e : HistoryEntry,
        (exchange s now r).2 = .ok e ∧
        (exchange s now r).1.history = s.history ++ [e] ∧
        e.currency_code = "SOM" ∧
        (exchange s now r).1.currencies.find? (fun c => c.code == "SOM") =
          some { som with quantity := som.quantity + (r.total - r.quantity) } ∧
        (∀ Y, Y ≠ "SOM" →
          (exchange s now r).1.currencies.find? (fun c => c.code == Y) =
            s.currencies.find? (fun c => c.code == Y))) := by
  have hpos : ¬(r.rate ≤ 0 ∨ r.quantity ≤ 0 ∨ r.total ≤ 0) := by
    push_neg
    exact ⟨hrate, hqty, htot⟩
  have hne : ¬(r.total ≠ pyRound2 (r.rate * r.quantity)) := not_ne_iff.mpr hround
  constructor
  · intro hop hbal
    have hlt : ¬(som.quantity < r.total) := not_lt.mpr hbal
    refine ⟨⟨s.nextHistoryId, r.currency_code, r.operation_type,
             r.rate, r.quantity, r.total, now⟩, ?_, ?_, hcode, ?_, ?_⟩
    · simp only [exchange, hcode, hpos, hne, hlt, hsom, hop, if_false, if_true,
        ite_false, ite_true, Bool.false_eq_true]
    · simp only [exchange, hcode, hpos, hne, hlt, hsom, hop, if_false, if_true,
        ite_false, ite_true, Bool.false_eq_true]
    · simp only [exchange, hcode, hpos, hne, hlt, hsom, hop, if_false, if_true,
        ite_false, ite_true, Bool.false_eq_true]
      rw [find?_code_updateFirst _ ("SOM") ("SOM")
            (fun c => { c with quantity := c.quantity + r.quantity }) (fun c => rfl),
          if_pos rfl,
          find?_code_updateFirst _ ("SOM") ("SOM")
            (fun c => { c with quantity := c.quantity - r.total }) (fun c => rfl),
          if_pos rfl, hsom, Option.map_some', Option.map_some']
      simp only [Option.some.injEq, Currency.mk.injEq, true_and, and_true]
      ring
    · intro Y hY
      simp only [exchange, hcode, hpos, hne, hlt, hsom, hop, if_false, if_true,
        ite_false, ite_true, Bool.false_eq_true]
      rw [find?_code_updateFirst _ ("SOM") Y
            (fun c => { c with quantity := c.quantity + r.quantity }) (fun c => rfl),
          if_neg hY,
          find?_code_updateFirst _ ("SOM") Y
            (fun c => { c with quantity := c.quantity - r.total }) (fun c => rfl),
          if_neg hY]
  · intro hop hbal
    have hSP : ¬(("Sale" : String) = "Purchase") := by decide
    have hlt : ¬(som.quantity < r.quantity) := not_lt.mpr hbal
    refine ⟨⟨s.nextHistoryId, r.currency_code, r.operation_type,
             r.rate, r.quantity, r.total, now⟩, ?_, ?_, hcode, ?_, ?_⟩
    · simp only [exchange, hcode, hpos, hne, hlt, hsom, hop, hSP, if_false, if_true,
        ite_false, ite_true, eq_self_iff_true, Bool.false_eq_true]
    · simp only [exchange, hcode, hpos, hne, hlt, hsom, hop, hSP, if_false, if_true,
        ite_false, ite_true, eq_self_iff_true, Bool.false_eq_true]
    · simp only [exchange, hcode, hpos, hne, hlt, hsom, hop, hSP, if_false, if_true,
        ite_false, ite_true, eq_self_iff_true, Bool.false_eq_true]
      rw [find?_code_updateFirst _ ("SOM") ("SOM")
            (fun c => { c with quantity := c.quantity + r.total }) (fun c => rfl),
          if_pos rfl,
          find?_code_updateFirst _ ("SOM") ("SOM")
            (fun c => { c with quantity := c.quantity - r.quantity }) (fun c => rfl),
          if_pos rfl, hsom, Option.map_some', Option.map_some']
      simp only [Option.some.injEq, Currency.mk.injEq, true_and, and_true]
      ring
    · intro Y hY
      simp only [exchange, hcode, hpos, hne, hlt, hsom, hop, hSP, if_false, if_true,
        ite_false, ite_true, eq_self_iff_true, Bool.false_eq_true]
      rw [find?_code_updateFirst _ ("SOM") Y
            (fun c => { c with quantity := c.quantity + r.total }) (fun c => rfl),
          if_neg hY,
          find?_code_updateFirst _ ("SOM") Y
            (fun c => { c with quantity := c.quantity - r.quantity }) (fun c => rfl),
          if_neg hY]

theorem exchange_som_self_witness :
    reqSom.total = pyRound2 (reqSom.rate * reqSom.quantity) ∧
    ((reqSom.operation_type = "Purchase" → reqSom.total ≤ (1000 : ℚ) →
      ∃ e : HistoryEntry,
        (exchange somState 0 reqSom).2 = .ok e ∧
        (exchange somState 0 reqSom).1.history = somState.history ++ [e] ∧
        e.currency_code = "SOM" ∧
        (exchange somState 0 reqSom).1.currencies.find? (fun c => c.code == "SOM") =
          some { (⟨1, "SOM", 1000, 0, 0, 0⟩ : Currency) with
                   quantity := 1000 + (reqSom.quantity - reqSom.total) } ∧
        (∀ Y, Y ≠ "SOM" →
          (exchange somState 0 reqSom).1.currencies.find? (fun c => c.code == Y) =
            somState.currencies.find? (fun c => c.code == Y))) ∧
    (reqSom.operation_type = "Sale" → reqSom.quantity ≤ (1000 : ℚ) →
      ∃ e : HistoryEntry,
        (exchange somState 0 reqSom).2 = .ok e ∧
        (exchange somState 0 reqSom).1.history = somState.history ++ [e] ∧
        e.currency_code = "SOM" ∧
        (exchange somState 0 reqSom).1.currencies.find? (fun c => c.code == "SOM") =
          some { (⟨1, "SOM", 1000, 0, 0, 0⟩ : Currency) with
                   quantity := 1000 + (reqSom.total - reqSom.quantity) } ∧
        (∀ Y, Y ≠ "SOM" →
          (exchange somState 0 reqSom).1.currencies.find? (fun c => c.code == Y) =
            somState.currencies.find? (fun c => c.code == Y)))) :=
  ⟨by rw [show reqSom.total = (200 : ℚ) from rfl,
        show reqSom.rate * reqSom.quantity = ((2 : ℚ) * 100) from rfl,
        pyRound2_mul_hundred 20000 (by norm_num)]
      norm_num,
   exchange_som_self somState 0 reqSom ⟨1, "SOM", 1000, 0, 0, 0⟩
     rfl (by norm_num [reqSom]) (by norm_num [reqSom]) (by norm_num [reqSom])
     (by rw [show reqSom.total = (200 : ℚ) from rfl,
           show reqSom.rate * reqSom.quantity = ((2 : ℚ) * 100) from rfl,
           pyRound2_mul_hundred 20000 (by norm_num)]
         norm_num)
     rfl⟩

/-! ### C3: non-negativity of balances -/

theorem nonneg_sub_then_add (cs : List Currency) (p1 p2 : Currency → Bool)
    (x y : ℚ) (a : Currency)
    (h : ∀ c ∈ cs, 0 ≤ c.quantity)
    (hfind : cs.find? p1 = some a)
    (hx : x ≤ a.quantity) (hy : 0 ≤ y) :
    ∀ c ∈ updateFirst p2 (fun c => { c with quantity := c.quantity + y })
        (updateFirst p1 (fun c => { c with quantity := c.quantity - x }) cs),
      0 ≤ c.quantity := by
  have h1 : ∀ c ∈ updateFirst p1 (fun c => { c with quantity := c.quantity - x }) cs,
      0 ≤ c.quantity := by
    intro d hd
    rcases mem_updateFirst hd with hmem | ⟨z, hz, rfl⟩
    · exact h d hmem
    · have hza : z = a := by
        rw [hfind] at hz
        exact (Option.some.inj hz).symm
      subst hza
      show 0 ≤ z.quantity - x
      linarith
  intro c hc
  rcases mem_updateFirst hc with hmem | ⟨z, hz, rfl⟩
  · exact h1 c hmem
  · have hzq := h1 z (List.mem_of_find?_eq_some hz)
    show 0 ≤ z.quantity + y
    linarith

theorem exchange_nonneg (s : State) (now : Nat) (r : ExchangeReq)
    (h : AllNonneg s) : AllNonneg (exchange s now r).1 := by
  unfold exchange
  repeat' split
  all_goals try exact h
  · rename_i hpos hmm x1 currency hc x2 som hsom hop hlt
    have hqty : 0 < r.quantity := by
      push_neg at hpos
      exact hpos.2.1
    exact nonneg_sub_then_add s.currencies _ _ r.total r.quantity som h hsom
      (not_lt.mp hlt) (le_of_lt hqty)
  · rename_i hpos hmm x1 currency hc x2 som hsom hopneg hop hlt
    have htot : 0 < r.total := by
      push_neg at hpos
      exact hpos.2.2
    exact nonneg_sub_then_add s.currencies _ _ r.quantity r.total currency h hc
      (not_lt.mp hlt) (le_of_lt htot)

theorem applyOp_nonneg (s : State) (op : Op) (h : AllNonneg s) (hg : GoodOp op) :
    AllNonneg (applyOp s op) := by
  cases op with
  | createCurrency now code q b r =>
    simp only [applyOp, create_currency]
    split
    · exact h
    · intro c hc
      rcases List.mem_append.mp hc with hmem | hmem
      · exact h c hmem
      · rw [List.mem_singleton] at hmem
        subst hmem
        show 0 ≤ q.getD 0
        cases q with
        | none => norm_num
        | some v => exact hg
  | updateCurrency now id code q b r =>
    simp only [applyOp, update_currency]
    split
    · exact h
    · rename_i c hcfind
      split
      · exact h
      · intro d hd
        rcases mem_updateFirst hd with hmem | ⟨z, hz, rfl⟩
        · exact h d hmem
        · show 0 ≤ q.getD c.quantity
          cases q with
          | none =>
            simpa using h c (List.mem_of_find?_eq_some hcfind)
          | some v => exact hg
  | setQuantity now code q =>
    simp only [applyOp, update_currency_quantity]
    split
    · exact h
    · rename_i c hcfind
      split
      · exact h
      · rename_i v
        intro d hd
        rcases mem_updateFirst hd with hmem | ⟨z, hz, rfl⟩
        · exact h d hmem
        · exact hg
  | deleteCurrency id =>
    simp only [applyOp, delete_currency]
    split
    · exact h
    · intro c hc
      exact h c (List.mem_of_mem_filter hc)
  | createHistory now code opType rate q t => exact h
  | updateHistory id code opType rate q t created =>
    simp only [applyOp, update_history]
    split <;> exact h
  | deleteHistory id =>
    simp only [applyOp, delete_history]
    split <;> exact h
  | createUser now u p role =>
    simp only [applyOp, create_user]
    split <;> exact h
  | updateUser id u p role =>
    simp only [applyOp, update_user]
    split
    · exact h
    · split <;> exact h
  | deleteUser id =>
    simp only [applyOp, delete_user]
    split <;> exact h
  | exchangeOp now r => exact exchange_nonneg s now r h
  | reset now =>
    simp only [applyOp, reset_data]
    split
    · intro c hc
      rcases mem_updateFirst (List.mem_of_mem_filter hc) with hmem | ⟨z, hz, rfl⟩
      · exact h c hmem
      · show (0 : ℚ) ≤ 0
        norm_num
    · intro c hc
      rcases List.mem_append.mp (List.mem_of_mem_filter hc) with hmem | hmem
      · exact h c hmem
      · rw [List.mem_singleton] at hmem
        subst hmem
        show (0 : ℚ) ≤ 0
        norm_num

/-- C3 counterexample: the quantity-set endpoint accepts a negative
value, so from the initial state one request reaches a state where SOM's
balance is negative — the claimed invariant fails over the program's full
operation set. -/
theorem som_negative_reachable_counterexample :
    Reachable (applyOp initState (.setQuantity 5 ("SOM") (some (-5)))) ∧
    ¬ AllNonneg (applyOp initState (.setQuantity 5 ("SOM") (some (-5)))) :=
  ⟨Reachable.next initState _ Reachable.init,
   fun hall => by
     have hm : (⟨1, "SOM", -5, 5, 0, 0⟩ : Currency) ∈
         (applyOp initState (.setQuantity 5 ("SOM") (some (-5)))).currencies := by
       rw [show (applyOp initState (.setQuantity 5 ("SOM") (some (-5)))).currencies =
             [⟨1, "SOM", -5, 5, 0, 0⟩] from rfl]
       exact List.mem_singleton_self _
     have := hall _ hm
     norm_num at this⟩

/-- C3 amended: after any sequence of the program's operations starting
from the initial state in which every quantity value supplied to the
currency-creation, currency-update and quantity-set endpoints is
non-negative, the quantity of every currency (SOM included) is `≥ 0`.
The unrestricted claim is false: those three endpoints accept negative
values unchecked. -/
theorem good_reachable_nonneg (s : State) (h : GoodReachable s) : AllNonneg s := by
  induction h with
  | init =>
    intro c hc
    rw [show initState.currencies = [⟨1, "SOM", 0, 0, 0, 0⟩] from rfl,
      List.mem_singleton] at hc
    subst hc
    norm_num
  | next s' op hr hg ih => exact applyOp_nonneg s' op ih hg

theorem good_reachable_nonneg_witness :
    GoodReachable (applyOp initState (.setQuantity 4 ("SOM") (some 7))) ∧
    AllNonneg (applyOp initState (.setQuantity 4 ("SOM") (some 7))) :=
  have hgr : GoodReachable (applyOp initState (.setQuantity 4 ("SOM") (some 7))) :=
    GoodReachable.next initState _ GoodReachable.init (by norm_num [GoodOp, NonnegOpt])
  ⟨hgr, good_reachable_nonneg _ hgr⟩

/-! ### C8: structural invariants and the system reset -/

theorem forall_mem_of_map_eq {α β : Type} {l1 l2 : List α} (g : α → β)
    (P : β → Prop) (heq : l1.map g = l2.map g) (h : ∀ x ∈ l2, P (g x)) :
    ∀ x ∈ l1, P (g x) := by
  intro x hx
  have hmem : g x ∈ l1.map g := List.mem_map_of_mem g hx
  rw [heq] at hmem
  obtain ⟨y, hy, hgy⟩ := List.mem_map.mp hmem
  exact hgy ▸ h y hy

theorem sinvC_of_map_eqs {cs1 cs2 : List Currency} {n : Nat}
    (hid : cs1.map (fun c => c.id) = cs2.map (fun c => c.id))
    (hcode : cs1.map (fun c => c.code) = cs2.map (fun c => c.code))
    (h : SInvC cs2 n) : SInvC cs1 n :=
  ⟨forall_mem_of_map_eq (fun c : Currency => c.id) (fun i => i < n) hid h.1,
   hid ▸ h.2.1, hcode ▸ h.2.2⟩

theorem sinvC_updateFirst (cs : List Currency) (n : Nat) (p : Currency → Bool)
    (f : Currency → Currency)
    (hid : ∀ c, p c = true → (f c).id = c.id)
    (hcode : ∀ c, p c = true → (f c).code = c.code)
    (h : SInvC cs n) : SInvC (updateFirst p f cs) n :=
  sinvC_of_map_eqs (map_updateFirst_fix (fun c => c.id) hid cs)
    (map_updateFirst_fix (fun c => c.code) hcode cs) h

theorem sinvC_update_quantity (cs : List Currency) (n : Nat) (p : Currency → Bool)
    (g : Currency → ℚ) (h : SInvC cs n) :
    SInvC (updateFirst p (fun c => { c with quantity := g c }) cs) n :=
  sinvC_updateFirst cs n p _ (fun _ _ => rfl) (fun _ _ => rfl) h

theorem sinvC_filter (cs : List Currency) (n : Nat) (p : Currency → Bool)
    (h : SInvC cs n) : SInvC (cs.filter p) n :=
  ⟨fun c hc => h.1 c (List.mem_of_mem_filter hc),
   (h.2.1).sublist ((List.filter_sublist cs).map (fun c => c.id)),
   (h.2.2).sublist ((List.filter_sublist cs).map (fun c => c.code))⟩

theorem sinvC_mono {cs : List Currency} {n m : Nat} (hnm : n ≤ m)
    (h : SInvC cs n) : SInvC cs m :=
  ⟨fun c hc => lt_of_lt_of_le (h.1 c hc) hnm, h.2.1, h.2.2⟩

theorem sinvC_append_fresh (cs : List Currency) (n : Nat) (c : Currency)
    (h : SInvC cs n) (hcode : ∀ o ∈ cs, o.code ≠ c.code) (hid : c.id = n) :
    SInvC (cs ++ [c]) (n + 1) := by
  refine ⟨?_, ?_, ?_⟩
  · intro d hd
    rcases List.mem_append.mp hd with hmem | hmem
    · exact lt_of_lt_of_le (h.1 d hmem) (Nat.le_succ n)
    · rw [List.mem_singleton] at hmem
      subst hmem
      rw [hid]
      exact Nat.lt_succ_self n
  · rw [List.map_append]
    simp only [List.map_cons, List.map_nil, List.nodup_append,
      List.nodup_cons, List.not_mem_nil, not_false_iff, List.nodup_nil,
      true_and, and_true, List.disjoint_singleton]
    refine ⟨h.2.1, ?_⟩
    intro hmem
    obtain ⟨o, ho, hoid⟩ := List.mem_map.mp hmem
    have := h.1 o ho
    rw [hoid, hid] at this
    exact lt_irrefl n this
  · rw [List.map_append]
    simp only [List.map_cons, List.map_nil, List.nodup_append,
      List.nodup_cons, List.not_mem_nil, not_false_iff, List.nodup_nil,
      true_and, and_true, List.disjoint_singleton]
    refine ⟨h.2.2, ?_⟩
    intro hmem
    obtain ⟨o, ho, hoc⟩ := List.mem_map.mp hmem
    exact hcode o ho hoc

theorem nodup_codes_updateFirst_const (i : Nat) (c' : Currency) :
    ∀ l : List Currency,
      (l.map (fun c => c.id)).Nodup →
      (l.map (fun c => c.code)).Nodup →
      (∀ o ∈ l, o.id = i ∨ o.code ≠ c'.code) →
      ((updateFirst (fun c => c.id == i) (fun _ => c') l).map
        (fun c => c.code)).Nodup := by
  intro l
  induction l with
  | nil => intro _ _ _; simp [updateFirst]
  | cons a tl ih =>
    intro hids hcodes hguard
    simp only [List.map_cons, List.nodup_cons] at hids hcodes
    cases hab : (a.id == i) with
    | true =>
      have haid : a.id = i := by simpa using hab
      simp only [updateFirst, hab, if_true, List.map_cons, List.nodup_cons]
      refine ⟨?_, hcodes.2⟩
      intro hmem
      obtain ⟨o, ho, hoc⟩ := List.mem_map.mp hmem
      rcases hguard o (List.mem_cons_of_mem a ho) with hid | hcode
      · exact hids.1 (List.mem_map.mpr ⟨o, ho, by rw [hid, haid]⟩)
      · exact hcode hoc
    | false =>
      simp only [updateFirst, hab, Bool.false_eq_true, if_false,
        List.map_cons, List.nodup_cons]
      refine ⟨?_, ih hids.2 hcodes.2
        (fun o ho => hguard o (List.mem_cons_of_mem a ho))⟩
      intro hmem
      obtain ⟨o, ho, hoc⟩ := List.mem_map.mp hmem
      rcases mem_updateFirst ho with hmem' | ⟨z, hz, rfl⟩
      · exact hcodes.1 (List.mem_map.mpr ⟨o, hmem', hoc⟩)
      · rcases hguard a (List.mem_cons_self a tl) with hid | hcode
        · rw [← hid] at hab
          simp at hab
        · exact hcode hoc.symm

theorem sinv_applyOp (s : State) (op : Op) (h : SInv s) : SInv (applyOp s op) := by
  cases op with
  | createCurrency now code q b r =>
    simp only [applyOp, create_currency]
    split
    · exact h
    · rename_i hnone
      refine sinvC_append_fresh s.currencies s.nextCurrencyId _ h ?_ rfl
      intro o ho hoc
      have := List.find?_eq_none.mp hnone o ho
      simp only [beq_iff_eq] at this
      exact this hoc
  | updateCurrency now id code q b r =>
    simp only [applyOp, update_currency]
    split
    · exact h
    · rename_i c hcfind
      split
      · exact h
      · rename_i hguard
        have hcid : c.id = id := by
          have := List.find?_some hcfind
          simpa using this
        have hguard' : ∀ o ∈ s.currencies, o.id = id ∨
            o.code ≠ (applyCurrencyFields c now code q b r).code := by
          intro o ho
          by_cases hoid : o.id = id
          · exact Or.inl hoid
          · refine Or.inr ?_
            intro hoc
            apply hguard
            refine List.any_eq_true.mpr ⟨o, ho, ?_⟩
            simp [hoid, hoc]
        have hfix : ∀ x : Currency, ((fun o => o.id == id) x) = true →
            ((fun _ : Currency => applyCurrencyFields c now code q b r) x).id = x.id := by
          intro x hx
          show (applyCurrencyFields c now code q b r).id = x.id
          rw [show (applyCurrencyFields c now code q b r).id = c.id from rfl, hcid]
          have : x.id = id := by simpa using hx
          rw [this]
        dsimp only
        refine ⟨?_, ?_, ?_⟩
        · intro d hd
          rcases mem_updateFirst hd with hmem | ⟨z, hz, rfl⟩
          · exact h.1 d hmem
          · show (applyCurrencyFields c now code q b r).id < s.nextCurrencyId
            have hcc : (applyCurrencyFields c now code q b r).id = c.id := rfl
            rw [hcc]
            exact h.1 c (List.mem_of_find?_eq_some hcfind)
        · rw [map_updateFirst_fix (fun c => c.id) hfix s.currencies]
          exact h.2.1
        · exact nodup_codes_updateFirst_const id _ s.currencies h.2.1 h.2.2 hguard'
  | setQuantity now code q =>
    simp only [applyOp, update_currency_quantity]
    split
    · exact h
    · rename_i c hcfind
      split
      · exact h
      · rename_i v
        exact sinvC_updateFirst s.currencies s.nextCurrencyId
          (fun o => o.code == code)
          (fun o => { o with quantity := v, updated_at := now })
          (fun c _ => rfl) (fun c _ => rfl) h
  | deleteCurrency id =>
    simp only [applyOp, delete_currency]
    split
    · exact h
    · exact sinvC_filter s.currencies s.nextCurrencyId _ h
  | createHistory now code opType rate q t => exact h
  | updateHistory id code opType rate q t created =>
    simp only [applyOp, update_history]
    split <;> exact h
  | deleteHistory id =>
    simp only [applyOp, delete_history]
    split <;> exact h
  | createUser now u p role =>
    simp only [applyOp, create_user]
    split <;> exact h
  | updateUser id u p role =>
    simp only [applyOp, update_user]
    split
    · exact h
    · split <;> exact h
  | deleteUser id =>
    simp only [applyOp, delete_user]
    split <;> exact h
  | exchangeOp now r =>
    show SInv (exchange s now r).1
    unfold exchange
    repeat' split
    all_goals try exact h
    all_goals
      exact sinvC_update_quantity _ s.nextCurrencyId _ _
        (sinvC_update_quantity _ s.nextCurrencyId _ _ h)
  | reset now =>
    simp only [applyOp, reset_data]
    split
    · exact sinvC_filter _ s.nextCurrencyId _
        (sinvC_update_quantity _ s.nextCurrencyId _ _ h)
    · rename_i hnone
      refine sinvC_filter _ (s.nextCurrencyId + 1) _
        (sinvC_append_fresh s.currencies s.nextCurrencyId _ h ?_ rfl)
      intro o ho hoc
      have := List.find?_eq_none.mp hnone o ho
      simp only [beq_iff_eq] at this
      exact this hoc

theorem reachable_sinv (s : State) (h : Reachable s) : SInv s := by
  induction h with
  | init =>
    refine ⟨?_, ?_, ?_⟩ <;> simp [initState, SInv, SInvC]
  | next s' op hr ih => exact sinv_applyOp s' op ih

theorem filter_som_updateFirst_zero :
    ∀ (l : List Currency) (som : Currency),
      (l.map (fun c => c.code)).Nodup →
      l.find? (fun c => c.code == "SOM") = some som →
      (updateFirst (fun c => c.code == "SOM") (fun c => { c with quantity := 0 }) l).filter
        (fun c => c.code == "SOM") = [{ som with quantity := 0 }] := by
  intro l
  induction l with
  | nil => intro som _ hf; simp at hf
  | cons a tl ih =>
    intro som hnd hf
    simp only [List.map_cons, List.nodup_cons] at hnd
    cases hab : (a.code == "SOM") with
    | true =>
      have hasom : som = a := by
        rw [List.find?_cons, hab] at hf
        exact (Option.some.inj hf).symm
      subst hasom
      have hab' : som.code = "SOM" := by simpa using hab
      have htl : tl.filter (fun c => c.code == "SOM") = [] := by
        refine filter_eq_nil_of_all_ne ?_
        intro o ho
        simp only [beq_eq_false_iff_ne, ne_eq]
        intro hoc
        apply hnd.1
        refine List.mem_map.mpr ⟨o, ho, ?_⟩
        rw [hoc, hab']
      have hupd : updateFirst (fun c => c.code == "SOM")
          (fun c => { c with quantity := 0 }) (som :: tl) =
          { som with quantity := 0 } :: tl := by
        simp [updateFirst, hab]
      rw [hupd, List.filter_cons,
        if_pos (show (({ som with quantity := 0 } : Currency).code == "SOM") = true from hab),
        htl]
    | false =>
      rw [List.find?_cons, hab] at hf
      simp only [updateFirst, hab, Bool.false_eq_true, if_false, List.filter_cons, hab]
      exact ih som hnd.2 hf

/-- Exactly one currency — SOM, zeroed — survives a reset, on any state
whose currency codes are unique. -/
theorem reset_currencies_eq (s : State) (now : Nat)
    (hcodes : (s.currencies.map (fun c => c.code)).Nodup) :
    ∃ c : Currency, (reset_data s now).currencies = [c] ∧
      c.code = "SOM" ∧ c.quantity = 0 := by
  unfold reset_data
  split
  · rename_i som hsom
    have hsc : som.code = "SOM" := by simpa using List.find?_some hsom
    exact ⟨{ som with quantity := 0 },
      filter_som_updateFirst_zero s.currencies som hcodes hsom, hsc, rfl⟩
  · rename_i hnone
    refine ⟨⟨s.nextCurrencyId, "SOM", 0, now, 0, 0⟩, ?_, rfl, rfl⟩
    have h1 : s.currencies.filter (fun c => c.code == "SOM") = [] := by
      refine filter_eq_nil_of_all_ne ?_
      intro o ho
      have := List.find?_eq_none.mp hnone o ho
      simpa using this
    simp only [List.filter_append, h1]
    rfl

/-- C8 counterexample: change the admin password to `b`, then reset —
the admin credential keeps password `b`; it is not restored to its
default value. -/
theorem reset_keeps_admin_counterexample :
    Reachable (applyOp initState (.updateUser 1 none (some "b") none)) ∧
    (reset_data (applyOp initState (.updateUser 1 none (some "b") none)) 7).users =
      [⟨1, "a", "b", "admin", 0⟩] ∧
    ¬ (∀ u ∈ (reset_data (applyOp initState (.updateUser 1 none (some "b") none)) 7).users,
        u.username = "a" → u.password = "a") := by
  refine ⟨Reachable.next initState _ Reachable.init, rfl, ?_⟩
  intro hall
  have hm : (⟨1, "a", "b", "admin", 0⟩ : User) ∈
      (reset_data (applyOp initState (.updateUser 1 none (some "b") none)) 7).users := by
    rw [show (reset_data (applyOp initState (.updateUser 1 none (some "b") none)) 7).users =
          [⟨1, "a", "b", "admin", 0⟩] from rfl]
    exact List.mem_singleton_self _
  have := hall _ hm rfl
  simp at this

/-- C8 amended: after a system reset from any reachable state, the
history is empty and exactly one currency remains — code `SOM`,
quantity `0` — and exactly the credential records whose username is the
admin username `a` survive, kept with their current field values: the
admin credential is not restored to defaults and is not recreated when
absent. -/
theorem reset_spec (s : State) (now : Nat) (h : Reachable s) :
    (reset_data s now).history = [] ∧
    (∃ c : Currency, (reset_data s now).currencies = [c] ∧
      c.code = "SOM" ∧ c.quantity = 0) ∧
    (reset_data s now).users = s.users.filter (fun u => u.username == "a") := by
  have hsinv := reachable_sinv s h
  refine ⟨?_, reset_currencies_eq s now hsinv.2.2, ?_⟩
  · unfold reset_data
    split <;> rfl
  · unfold reset_data
    split <;> rfl

theorem reset_spec_witness :
    Reachable (applyOp initState (.exchangeOp 1 reqSom)) ∧
    ((reset_data (applyOp initState (.exchangeOp 1 reqSom)) 2).history = [] ∧
      (∃ c : Currency,
        (reset_data (applyOp initState (.exchangeOp 1 reqSom)) 2).currencies = [c] ∧
        c.code = "SOM" ∧ c.quantity = 0) ∧
      (reset_data (applyOp initState (.exchangeOp 1 reqSom)) 2).users =
        (applyOp initState (.exchangeOp 1 reqSom)).users.filter
          (fun u => u.username == "a")) :=
  have hr : Reachable (applyOp initState (.exchangeOp 1 reqSom)) :=
    Reachable.next initState _ Reachable.init
  ⟨hr, reset_spec _ 2 hr⟩

/-! ### C9: the profitability ranking -/

theorem filterMap_guard {α β : Type} (b : α → Bool) (g : α → β) :
    ∀ l : List α,
      (l.filterMap (fun x => if b x then none else some (g x))) =
        (l.filter (fun x => !(b x))).map g := by
  intro l
  induction l with
  | nil => rfl
  | cons a tl ih =>
    cases hb : b a with
    | true => simp [List.filterMap_cons, List.filter_cons, hb, ih]
    | false => simp [List.filterMap_cons, List.filter_cons, hb, ih]

theorem avg_guard_eq (l : List HistoryEntry) (hpos : ∀ x ∈ l, 0 < x.quantity)
    (amt : ℚ) :
    (if 0 < (l.map (fun p => p.quantity)).sum then
        amt / (l.map (fun p => p.quantity)).sum else 0) =
      (if l.isEmpty then 0 else amt / (l.map (fun p => p.quantity)).sum) := by
  cases l with
  | nil => simp
  | cons a tl =>
    have hpos' : 0 < ((a :: tl).map (fun p => p.quantity)).sum := by
      refine List.sum_pos _ ?_ (by simp)
      intro x hx
      obtain ⟨y, hy, rfl⟩ := List.mem_map.mp hx
      exact hpos y hy
    rw [if_pos hpos', if_neg (show ¬(((a :: tl).isEmpty) = true) by simp)]

theorem profitRowFor_eq_spec (hs : List HistoryEntry) (from_d to_d : Nat)
    (code : String) (hq : ∀ h ∈ hs, 0 < h.quantity) :
    profitRowFor hs from_d to_d code = specProfitRow hs from_d to_d code := by
  have hmemP : ∀ x ∈ windowEntries hs from_d to_d code ("Purchase"), 0 < x.quantity :=
    fun x hx => hq x (List.mem_of_mem_filter hx)
  have hmemS : ∀ x ∈ windowEntries hs from_d to_d code ("Sale"), 0 < x.quantity :=
    fun x hx => hq x (List.mem_of_mem_filter hx)
  simp only [profitRowFor, specProfitRow]
  rw [avg_guard_eq (windowEntries hs from_d to_d code ("Purchase")) hmemP
        ((windowEntries hs from_d to_d code ("Purchase")).map (fun p => p.total)).sum,
      avg_guard_eq (windowEntries hs from_d to_d code ("Sale")) hmemS
        ((windowEntries hs from_d to_d code ("Sale")).map (fun p => p.total)).sum]

/-- C9: on any state whose ledger rows all carry a positive quantity (the
spec's HistoryEntry invariant), the profitability ranking for a window is
a permutation of one row per existing non-SOM currency having at least
one Purchase or at least one Sale entry in the window — each row carrying
`avgPurchaseRate = totalPurchaseAmount / totalPurchasedQty` (0 if no
purchases), `avgSaleRate = totalSaleAmount / totalSoldQty` (0 if no
sales) and `profit = (avgSaleRate - avgPurchaseRate) * totalSoldQty` —
and the ranking is sorted descending by profit. -/
theorem profitable_currencies_spec (s : State) (from_d to_d : Nat)
    (hq : ∀ h ∈ s.history, 0 < h.quantity) :
    (profitable_currencies s from_d to_d).Perm
      (((s.currencies.filter (fun c => !(c.code == "SOM"))).filter (fun c =>
          !(windowEntries s.history from_d to_d c.code ("Purchase")).isEmpty ||
          !(windowEntries s.history from_d to_d c.code ("Sale")).isEmpty)).map
        (fun c => specProfitRow s.history from_d to_d c.code)) ∧
    (profitable_currencies s from_d to_d).Sorted
      (fun a b => b.profit ≤ a.profit) := by
  constructor
  · have hX : ((s.currencies.filter (fun c => !(c.code == "SOM"))).filterMap
        (fun currency =>
          if (windowEntries s.history from_d to_d currency.code ("Purchase")).isEmpty &&
             (windowEntries s.history from_d to_d currency.code ("Sale")).isEmpty then
            none
          else
            some (profitRowFor s.history from_d to_d currency.code))) =
        (((s.currencies.filter (fun c => !(c.code == "SOM"))).filter (fun c =>
            !(windowEntries s.history from_d to_d c.code ("Purchase")).isEmpty ||
            !(windowEntries s.history from_d to_d c.code ("Sale")).isEmpty)).map
          (fun c => specProfitRow s.history from_d to_d c.code)) := by
      rw [filterMap_guard
            (fun currency : Currency =>
              (windowEntries s.history from_d to_d currency.code ("Purchase")).isEmpty &&
              (windowEntries s.history from_d to_d currency.code ("Sale")).isEmpty)
            (fun currency : Currency => profitRowFor s.history from_d to_d currency.code)]
      have hpred : (fun c : Currency =>
            !((windowEntries s.history from_d to_d c.code ("Purchase")).isEmpty &&
              (windowEntries s.history from_d to_d c.code ("Sale")).isEmpty)) =
          (fun c : Currency =>
            !(windowEntries s.history from_d to_d c.code ("Purchase")).isEmpty ||
            !(windowEntries s.history from_d to_d c.code ("Sale")).isEmpty) := by
        funext c
        rw [Bool.not_and]
      have hg : (fun c : Currency => profitRowFor s.history from_d to_d c.code) =
          (fun c : Currency => specProfitRow s.history from_d to_d c.code) :=
        funext fun c => profitRowFor_eq_spec s.history from_d to_d c.code hq
      rw [hpred, hg]
    exact (List.perm_insertionSort _ _).trans (hX ▸ List.Perm.refl _)
  · exact List.sorted_insertionSort _ _

theorem profitable_currencies_spec_witness :
    (∀ h ∈ analyticsState.history, 0 < h.quantity) ∧
    ((profitable_currencies analyticsState 0 10).Perm
      (((analyticsState.currencies.filter (fun c => !(c.code == "SOM"))).filter (fun c =>
          !(windowEntries analyticsState.history 0 10 c.code ("Purchase")).isEmpty ||
          !(windowEntries analyticsState.history 0 10 c.code ("Sale")).isEmpty)).map
        (fun c => specProfitRow analyticsState.history 0 10 c.code)) ∧
    (profitable_currencies analyticsState 0 10).Sorted
      (fun a b => b.profit ≤ a.profit)) :=
  have hq : ∀ h ∈ analyticsState.history, 0 < h.quantity := by
    intro h hh
    simp only [analyticsState, List.mem_cons, List.not_mem_nil, or_false] at hh
    rcases hh with rfl | rfl <;> norm_num
  ⟨hq, profitable_currencies_spec analyticsState 0 10 hq⟩

end CurrencyServer
